import Mathlib

/-!
Verification of the generation-request workflow of the `agentcy-one`
repository (`apps/api/src/routes/generation.ts`, `services/ai-service.ts`,
`services/v0-service.ts`, assembled in `src/src/CommandCenter.jsx`).

The handler `POST /generation/generate` is embedded as a pure function over
an explicit state (a single account row, the `generations` table, and the R2
blob store) together with an oracle supplying the outcome of every external
effect (database statements, the two provider adapters, and blob writes).
Besides the final response and state, the embedding produces a trace of the
side-effecting events, in execution order, so that ordering claims (insert
before provider call, fallback before failure, completed before increment)
can be stated directly.
-/

namespace Gen

/-- The account row read by the quota gate
(`SELECT generations_used, generations_limit FROM users WHERE id = ?`). -/
structure UserRow where
  generations_used : Int
  generations_limit : Int
deriving DecidableEq, Repr

/-- One file of a provider result (`{name, content, type}`); `ftype` is
`none` when the provider response carried no `type` field. -/
structure GenFile where
  name : String
  content : String
  ftype : Option String
deriving DecidableEq, Repr

/-- The normalized provider structure
`{ files, description, instructions }` both adapters are specified to
produce. -/
structure ProviderResult where
  files : List GenFile
  description : String
  instructions : String
deriving DecidableEq, Repr

/-- An entry of the `fileUrls` list pushed by the R2 storage loop:
`{ name, url, type }` (the raw `file.type`, not the defaulted one). -/
structure FileUrl where
  name : String
  url : String
  ftype : Option String
deriving DecidableEq, Repr

/-- A row of the `generations` table (migration `0001_initial.sql`); the
JSON-serialized `result` and `files` columns are modelled by the serialized
values themselves. -/
structure GenRow where
  id : String
  user_id : String
  project_id : Option String
  prompt : String
  ty : String
  framework : String
  status : String
  result : Option ProviderResult
  files : Option (List FileUrl)
  error : Option String
  created_at : String
  completed_at : Option String
deriving DecidableEq, Repr

/-- One object written to the R2 bucket (`STORAGE.put(fileKey, content,
{httpMetadata: {contentType}})`). -/
structure R2Object where
  key : String
  content : String
  contentType : String
deriving DecidableEq, Repr

/-- The backing store visible to one run of the handler: the caller's user
row, the `generations` table and the blob store. -/
@[ext]
structure St where
  user : UserRow
  generations : List GenRow
  storage : List R2Object
deriving DecidableEq, Repr

/-- Side-effecting events of one handler run, in execution order. -/
inductive Ev where
  | insertGen (row : GenRow)
  | callPrimary
  | callFallback
  | r2Put (key : String)
  | updateCompleted (id : String)
  | incrementUsage
  | updateFailed (id : String) (msg : String)
deriving DecidableEq, Repr

/-- The handler's HTTP response. -/
inductive Resp where
  | quotaExceeded (msg : String)
  | success (generationId : String) (code : ProviderResult) (files : List FileUrl) (msg : String)
  | failure (msg : String)
  | thrownOut (msg : String)
deriving DecidableEq, Repr

/-- HTTP status code of a response (`429`, `200`, `500`); an exception that
escapes the handler is reported by the framework's error handler, also as a
`500`. -/
def Resp.code : Resp → Nat
  | .quotaExceeded _ => 429
  | .success _ _ _ _ => 200
  | .failure _ => 500
  | .thrownOut _ => 500

/-- Outcome oracle for the external effects of one run: each database
statement, each provider adapter and each blob write either succeeds or
throws with a message. -/
structure Oracle where
  userRead : Except String Unit
  insertG : Except String Unit
  primary : Except String ProviderResult
  fallbackR : Except String ProviderResult
  put : String → Except String Unit
  completedU : Except String Unit
  incrU : Except String Unit
  failedU : Except String Unit

/-- The validated request body together with the per-run values threaded
through the handler. `generationId` is modelled from the spec: the handler's
generated identifier (its declaration is absent from the assembled source;
the spec states a generated identifier is used), supplied here as an
abstract fresh value, as are the two `new Date().toISOString()` readings. -/
structure GenInput where
  prompt : String
  ty : String
  framework : String
  projectId : Option String
  userId : String
  generationId : String
  createdAt : String
  completedAt : String
deriving DecidableEq, Repr

/-- Message of the 429 quota response (line 35 of the route). -/
def quotaMsg : String := "Generation limit reached. Upgrade your plan to continue."

/-- Fixed storage host prefixed to every file key (line 79). -/
def storageHost : String := "https://storage.thisaicodes.com/"

/-- R2 object key for one generated file:
`generations/${generationId}/${file.name}` (line 69). -/
def fileKeyOf (generationId fname : String) : String :=
  "generations/" ++ generationId ++ "/" ++ fname

/-- Content type used for the blob write: `file.type || 'text/plain'`
(line 73); the empty string is falsy in JavaScript, so it also defaults. -/
def contentTypeOf (t : Option String) : String :=
  match t with
  | some s => if s = "" then "text/plain" else s
  | none => "text/plain"

/-- The `generations` row inserted by the ledger insert (lines 41-52):
status `'processing'`, result/files/error/completed_at unset. -/
def mkRow (inp : GenInput) : GenRow :=
  { id := inp.generationId
    user_id := inp.userId
    project_id := inp.projectId
    prompt := inp.prompt
    ty := inp.ty
    framework := inp.framework
    status := "processing"
    result := none
    files := none
    error := none
    created_at := inp.createdAt
    completed_at := none }

/-- The row-update function of the failed update in the catch block
(lines 112-114): set status `"failed"` and the error message on the row
with the request's id. -/
def updFailed (inp : GenInput) (emsg : String) : GenRow → GenRow := fun r =>
  if r.id = inp.generationId then { r with status := "failed", error := some emsg } else r

/-- The row-update function of the completed update (lines 85-94): set
status `"completed"`, the serialized result and descriptor list, and the
completion timestamp on the row with the request's id. -/
def updCompleted (inp : GenInput) (gc : ProviderResult) (urls : List FileUrl) :
    GenRow → GenRow := fun r =>
  if r.id = inp.generationId then
    { r with status := "completed", result := some gc, files := some urls,
             completed_at := some inp.completedAt }
  else r

/-- The catch block (lines 108-117): update the row to `"failed"` with the
caught error's message, then answer a generic 500. If the recovery update
itself throws, the exception escapes the handler. -/
def runCatch (o : Oracle) (inp : GenInput) (st : St) (emsg : String) (tr : List Ev) :
    Resp × St × List Ev :=
  match o.failedU with
  | .error e2 => (.thrownOut e2, st, tr)
  | .ok _ =>
    (.failure "Code generation failed",
     { st with generations := st.generations.map (updFailed inp emsg) },
     tr ++ [.updateFailed inp.generationId emsg])

/-- The R2 storage loop (lines 68-82): write each file under its key with
the (defaulted) content type and collect the `fileUrls` entry; a throwing
put aborts the loop with the state reached so far. -/
def putLoop (o : Oracle) (generationId : String) :
    List GenFile → St → List FileUrl → List Ev →
    Except (String × St × List Ev) (St × List FileUrl × List Ev)
  | [], st, urls, tr => .ok (st, urls, tr)
  | f :: rest, st, urls, tr =>
    let key := fileKeyOf generationId f.name
    match o.put key with
    | .error e => .error (e, st, tr)
    | .ok _ =>
      putLoop o generationId rest
        { st with storage := st.storage ++ [⟨key, f.content, contentTypeOf f.ftype⟩] }
        (urls ++ [⟨f.name, storageHost ++ key, f.ftype⟩])
        (tr ++ [.r2Put key])

/-- Lines 84-106: the completed update (status, serialized result, file
descriptors, completion timestamp), then the separate usage-counter
increment, then the 200 response. An exception in either statement falls to
the catch block. -/
def finishSuccess (o : Oracle) (inp : GenInput) (gc : ProviderResult) (st : St)
    (urls : List FileUrl) (tr : List Ev) : Resp × St × List Ev :=
  match o.completedU with
  | .error e => runCatch o inp st e tr
  | .ok _ =>
    let st2 : St :=
      { st with generations := st.generations.map (updCompleted inp gc urls) }
    let tr2 := tr ++ [Ev.updateCompleted inp.generationId]
    match o.incrU with
    | .error e => runCatch o inp st2 e tr2
    | .ok _ =>
      (.success inp.generationId gc urls "Code generated successfully",
       { st2 with user := { st2.user with generations_used := st2.user.generations_used + 1 } },
       tr2 ++ [.incrementUsage])

/-- Lines 64-106 given the provider result: `generatedCode.files || []`
(a list, possibly empty), the storage loop, then the finalization. -/
def afterProvider (o : Oracle) (inp : GenInput) (gc : ProviderResult) (st : St)
    (tr : List Ev) : Resp × St × List Ev :=
  match putLoop o inp.generationId gc.files st [] tr with
  | .error (e, st', tr') => runCatch o inp st' e tr'
  | .ok (st', urls, tr') => finishSuccess o inp gc st' urls tr'

/-- The `POST /generation/generate` handler (lines 21-119): quota gate,
ledger insert, primary provider with fallback on any thrown error, artifact
storage, completed update, usage increment; any exception inside the `try`
is caught and recorded as a `failed` status. -/
def postGenerate (o : Oracle) (inp : GenInput) (st : St) : Resp × St × List Ev :=
  match o.userRead with
  | .error e => runCatch o inp st e []
  | .ok _ =>
    if st.user.generations_used ≥ st.user.generations_limit then
      (.quotaExceeded quotaMsg, st, [])
    else
      match o.insertG with
      | .error e => runCatch o inp st e []
      | .ok _ =>
        let st1 : St := { st with generations := st.generations ++ [mkRow inp] }
        let tr1 : List Ev := [.insertGen (mkRow inp)]
        match o.primary with
        | .ok gc => afterProvider o inp gc st1 (tr1 ++ [.callPrimary])
        | .error _ =>
          match o.fallbackR with
          | .ok gc => afterProvider o inp gc st1 (tr1 ++ [.callPrimary, .callFallback])
          | .error e => runCatch o inp st1 e (tr1 ++ [.callPrimary, .callFallback])

/-- The row of the `generations` table with the given id, if any. -/
def getGen (st : St) (generationId : String) : Option GenRow :=
  st.generations.find? (fun r => r.id = generationId)

/-! ## Primary provider adapter (`services/v0-service.ts`) -/

/-- One entry of `result.files` in the raw v0 response body. -/
structure V0File where
  name : String
  content : String
deriving DecidableEq, Repr

/-- The decoded JSON body of a v0 response: each field the transform reads
may be absent. -/
structure V0Json where
  files : Option (List V0File)
  description : Option String
  instructions : Option String
deriving DecidableEq, Repr

/-- Outcome of the `fetch` to `https://api.v0.dev/generate`: either the
call throws, or a response arrives with its `ok` flag, status, error text
and decoded JSON body. -/
inductive FetchOutcome where
  | throws (msg : String)
  | resp (ok : Bool) (status : Nat) (errorText : String) (json : V0Json)
deriving Repr

/-- `getFileType` (lines 345-358): map the lowercased final extension to a
content type, defaulting to `text/plain`. -/
def getFileType (filename : String) : String :=
  let ext := ((filename.splitOn ".").getLastD "").toLower
  if ext = "tsx" then "text/tsx"
  else if ext = "ts" then "text/typescript"
  else if ext = "jsx" then "text/jsx"
  else if ext = "js" then "text/javascript"
  else if ext = "css" then "text/css"
  else if ext = "html" then "text/html"
  else if ext = "json" then "application/json"
  else if ext = "md" then "text/markdown"
  else "text/plain"

/-- JavaScript `a || b` on an optional string: the empty string is falsy. -/
def jsOrStr (a : Option String) (b : String) : String :=
  match a with
  | some s => if s = "" then b else s
  | none => b

/-- `callV0API` (lines 288-343): throw if the key is unset, throw on a
thrown fetch or a non-`ok` response (`v0 API error: <status> <text>`), else
normalize the body: `files?.map(...) || []` with `getFileType` per file,
defaulted description and instructions. -/
def callV0API (hasKey : Bool) (f : FetchOutcome) : Except String ProviderResult :=
  if !hasKey then .error "v0 API key not configured"
  else
    match f with
    | .throws m => .error m
    | .resp ok status errorText json =>
      if !ok then .error ("v0 API error: " ++ toString status ++ " " ++ errorText)
      else
        .ok { files := (json.files.map (fun fs =>
                 fs.map (fun file => ⟨file.name, file.content, some (getFileType file.name)⟩))).getD []
              description := jsOrStr json.description "Generated with v0"
              instructions := jsOrStr json.instructions "Standard React component setup" }

/-! ## Fallback provider adapter (`services/ai-service.ts`)

`generateCode` extracts a JSON payload from the raw model text with two
regexes — ``/```json\s*([\s\S]*?)\s*```/`` then `/\{[\s\S]*\}/` — and
`JSON.parse`s the capture (or, when the capture is empty or absent, the
full match); if neither regex matches it synthesizes a one-file fallback
structure, and if anything throws it rethrows
`'AI code generation failed'`. The regex semantics and a JSON parser are
embedded below over `List Char`. -/

/-- Whitespace class of the JavaScript regex `\s` (the common members). -/
def isRegexWs (c : Char) : Bool :=
  c = ' ' || c = '\t' || c = '\n' || c = '\r' || c = '\x0b' || c = '\x0c' || c = '\xa0'

/-- Strip leading and trailing `\s` characters, as the greedy `\s*` around
the lazy capture group does. -/
def trimWs (s : List Char) : List Char :=
  ((s.dropWhile isRegexWs).reverse.dropWhile isRegexWs).reverse

/-- Index of the first occurrence of `pat` in the scanned list, counting
from `i`. -/
def findSubstrAux (pat : List Char) : List Char → Nat → Option Nat
  | [], i => if pat.isEmpty then some i else none
  | c :: rest, i =>
    if pat.isPrefixOf (c :: rest) then some i else findSubstrAux pat rest (i + 1)

/-- Index of the first occurrence of `pat` in `s`. -/
def findSubstr (s pat : List Char) : Option Nat := findSubstrAux pat s 0

/-- The literal `` ```json `` opening the fenced pattern. -/
def fenceOpen : List Char := "```json".data

/-- The literal `` ``` `` closing the fenced pattern. -/
def fenceClose : List Char := "```".data

/-- First match of ``/```json\s*([\s\S]*?)\s*```/``: the capture (content
between the first `` ```json `` and the first following `` ``` ``, with
surrounding `\s` trimmed by the greedy anchors) and the full match text. -/
def fencedMatch (s : List Char) : Option (List Char × List Char) :=
  match findSubstr s fenceOpen with
  | none => none
  | some p =>
    let afterOpen := s.drop (p + 7)
    match findSubstr afterOpen fenceClose with
    | none => none
    | some m =>
      some (trimWs (afterOpen.take m), (s.drop p).take (7 + m + 3))

/-- First match of `/\{[\s\S]*\}/`: from the first `{` to the last `}` of
the string (the greedy star), when the former precedes the latter. -/
def bareMatch (s : List Char) : Option (List Char) :=
  match s.findIdx? (fun c => c = '\x7b'), (s.reverse.findIdx? (fun c => c = '\x7d')) with
  | some i, some k =>
    let j := s.length - 1 - k
    if i < j then some ((s.drop i).take (j - i + 1)) else none
  | _, _ => none

/-- `jsonMatch = fenced || bare` then `jsonMatch[1] || jsonMatch[0]`: the
fenced capture when the fenced pattern matches (its full match if the
capture is empty, the empty string being falsy), else the bare match. -/
def extractCandidate (s : List Char) : Option (List Char) :=
  match fencedMatch s with
  | some (cap, full) => some (if cap = [] then full else cap)
  | none => bareMatch s

/-! ### JSON values and a model of `JSON.parse` -/

/-- A parsed JSON value; numbers keep their literal text (no claim inspects
a numeric value). -/
inductive JsonValue where
  | null
  | bool (b : Bool)
  | num (lit : String)
  | str (s : String)
  | arr (elems : List JsonValue)
  | obj (fields : List (String × JsonValue))

/-- JSON whitespace (space, tab, line feed, carriage return). -/
def isJsonWs (c : Char) : Bool :=
  c = ' ' || c = '\t' || c = '\n' || c = '\r'

/-- Drop leading JSON whitespace. -/
def skipWsJ (s : List Char) : List Char := s.dropWhile isJsonWs

/-- Value of a hexadecimal digit. -/
def hexVal (c : Char) : Option Nat :=
  if '0' ≤ c ∧ c ≤ '9' then some (c.toNat - '0'.toNat)
  else if 'a' ≤ c ∧ c ≤ 'f' then some (c.toNat - 'a'.toNat + 10)
  else if 'A' ≤ c ∧ c ≤ 'F' then some (c.toNat - 'A'.toNat + 10)
  else none

/-- Decimal digit test. -/
def isDigitC (c : Char) : Bool := '0' ≤ c && c ≤ '9'

/-- Parse the body of a JSON string after the opening quote, decoding the
standard escapes (a `\uXXXX` escape whose code is not a Unicode scalar is
approximated by the null character); fuelled by the input length. -/
def parseStrF : Nat → List Char → Option (List Char × List Char)
  | 0, _ => none
  | _ + 1, [] => none
  | fuel + 1, c :: rest =>
    if c = '\x22' then some ([], rest)
    else if c = '\\' then
      match rest with
      | 'u' :: h1 :: h2 :: h3 :: h4 :: rest2 =>
        match hexVal h1, hexVal h2, hexVal h3, hexVal h4 with
        | some a, some b, some d, some e =>
          let ch := Char.ofNat (((a * 16 + b) * 16 + d) * 16 + e)
          (parseStrF fuel rest2).map (fun p => (ch :: p.1, p.2))
        | _, _, _, _ => none
      | e :: rest2 =>
        let dec : Option Char :=
          if e = '\x22' then some '\x22'
          else if e = '\\' then some '\\'
          else if e = '/' then some '/'
          else if e = 'b' then some '\x08'
          else if e = 'f' then some '\x0c'
          else if e = 'n' then some '\n'
          else if e = 'r' then some '\r'
          else if e = 't' then some '\t'
          else none
        match dec with
        | some ch => (parseStrF fuel rest2).map (fun p => (ch :: p.1, p.2))
        | none => none
      | [] => none
    else if c.toNat < 0x20 then none
    else (parseStrF fuel rest).map (fun p => (c :: p.1, p.2))

/-- Parse a JSON number literal (`-?(0|[1-9][0-9]*)(\.[0-9]+)?([eE][+-]?[0-9]+)?`),
returning its text and the rest of the input. -/
def parseNumF (s : List Char) : Option (String × List Char) :=
  let pr : List Char × List Char :=
    match s with
    | '-' :: r => (['-'], r)
    | _ => ([], s)
  match pr.2 with
  | [] => none
  | c :: _ =>
    if ¬ isDigitC c then none
    else
      let intDigits := if c = '0' then ['0'] else pr.2.takeWhile isDigitC
      let s2 := pr.2.drop intDigits.length
      let fr : List Char × List Char :=
        match s2 with
        | '.' :: r =>
          let fd := r.takeWhile isDigitC
          if fd.isEmpty then ([], s2) else ('.' :: fd, r.drop fd.length)
        | _ => ([], s2)
      let ex : List Char × List Char :=
        match fr.2 with
        | e :: r =>
          if e = 'e' ∨ e = 'E' then
            let sg : List Char × List Char :=
              match r with
              | '+' :: rr => (['+'], rr)
              | '-' :: rr => (['-'], rr)
              | _ => ([], r)
            let ed := sg.2.takeWhile isDigitC
            if ed.isEmpty then ([], fr.2) else (e :: (sg.1 ++ ed), sg.2.drop ed.length)
          else ([], fr.2)
        | [] => ([], fr.2)
      some (String.mk (pr.1 ++ intDigits ++ fr.1 ++ ex.1), ex.2)

mutual

/-- Parse one JSON value (after skipping leading whitespace); fuelled. -/
def parseValF : Nat → List Char → Option (JsonValue × List Char)
  | 0, _ => none
  | fuel + 1, s =>
    match skipWsJ s with
    | [] => none
    | c :: rest =>
      if c = 'n' then
        match rest with
        | 'u' :: 'l' :: 'l' :: r => some (.null, r)
        | _ => none
      else if c = 't' then
        match rest with
        | 'r' :: 'u' :: 'e' :: r => some (.bool true, r)
        | _ => none
      else if c = 'f' then
        match rest with
        | 'a' :: 'l' :: 's' :: 'e' :: r => some (.bool false, r)
        | _ => none
      else if c = '\x22' then
        (parseStrF (rest.length + 1) rest).map (fun p => (.str (String.mk p.1), p.2))
      else if c = '\x7b' then
        parseMembersF fuel rest true []
      else if c = '\x5b' then
        parseElemsF fuel rest true []
      else
        (parseNumF (c :: rest)).map (fun p => (.num p.1, p.2))

/-- Parse object members after the opening brace; `first` is true before
any member has been read (an immediate closing brace is then allowed). -/
def parseMembersF : Nat → List Char → Bool → List (String × JsonValue) →
    Option (JsonValue × List Char)
  | 0, _, _, _ => none
  | fuel + 1, s, first, acc =>
    match skipWsJ s with
    | [] => none
    | c :: rest =>
      if c = '\x7d' ∧ first then some (.obj acc.reverse, rest)
      else if c = '\x22' then
        match parseStrF (rest.length + 1) rest with
        | none => none
        | some (key, afterKey) =>
          match skipWsJ afterKey with
          | ':' :: afterColon =>
            match parseValF fuel afterColon with
            | none => none
            | some (v, afterVal) =>
              match skipWsJ afterVal with
              | ',' :: afterComma =>
                parseMembersF fuel afterComma false ((String.mk key, v) :: acc)
              | '\x7d' :: afterBrace => some (.obj ((String.mk key, v) :: acc).reverse, afterBrace)
              | _ => none
          | _ => none
      else none

/-- Parse array elements after the opening bracket; `first` is true before
any element has been read (an immediate closing bracket is then allowed). -/
def parseElemsF : Nat → List Char → Bool → List JsonValue →
    Option (JsonValue × List Char)
  | 0, _, _, _ => none
  | fuel + 1, s, first, acc =>
    match skipWsJ s with
    | [] => none
    | c :: rest =>
      if c = '\x5d' ∧ first then some (.arr acc.reverse, rest)
      else
        match parseValF fuel (c :: rest) with
        | none => none
        | some (v, afterVal) =>
          match skipWsJ afterVal with
          | ',' :: afterComma => parseElemsF fuel afterComma false (v :: acc)
          | '\x5d' :: afterBracket => some (.arr (v :: acc).reverse, afterBracket)
          | _ => none

end

/-- `JSON.parse`: one JSON value covering the whole input up to
whitespace. -/
def jsonParse (s : List Char) : Option JsonValue :=
  match parseValF (2 * s.length + 2) s with
  | some (v, rest) => if skipWsJ rest = [] then some v else none
  | none => none

/-- `true` iff `JSON.parse` of this text yields an object. -/
def parsesAsJsonObject (s : List Char) : Bool :=
  match jsonParse s with
  | some (JsonValue.obj _) => true
  | _ => false

/-- `true` iff some contiguous substring of `s` is a parseable JSON
object. -/
def containsJsonObjectB (s : String) : Bool :=
  ((s.data.tails.map (fun t => t.inits)).flatten).any parsesAsJsonObject

/-- `needle` occurs verbatim inside `hay`. -/
def strContains (hay needle : String) : Prop :=
  ∃ pre post, hay = pre ++ needle ++ post

/-- Opening segment of the `generateFallbackCode` template, up to the first
`${prompt}` interpolation (source lines 259-282; every further brace of the
template is literal text of the generated component). -/
def fbA : String := "// Generated component based on: "

/-- Template segment between the two `${prompt}` interpolations. -/
def fbB : String := "\nimport React from \x27react\x27\n\ninterface Props \x7b\n  // Add your props here\n\x7d\n\nexport default function GeneratedComponent(props: Props) \x7b\n  return (\n    <div className=\"p-4\">\n      <h1 className=\"text-2xl font-bold text-gray-900\">\n        Generated Component\n      </h1>\n      <p className=\"mt-2 text-gray-600\">\n        This component was generated based on your prompt: \""

/-- Template segment after the second `${prompt}` interpolation. -/
def fbC : String := "\"\n      </p>\n      <div className=\"mt-4 p-4 bg-blue-50 rounded-lg\">\n        <p className=\"text-sm text-blue-600\">\n          Type: \x7btype\x7d | Framework: \x7bframework\x7d\n        </p>\n      </div>\n    </div>\n  )\n\x7d"

/-- `generateFallbackCode` (lines 258-283): the placeholder component
source; only `prompt` is interpolated (twice) — the `{type}` and
`{framework}` occurrences are literal JSX text of the template, so the
`ty`/`fw` parameters are unused. -/
def generateFallbackCode (prompt _ty _fw : String) : String :=
  fbA ++ prompt ++ fbB ++ prompt ++ fbC

/-- The basic structure returned when neither extraction regex matches
(lines 240-250). -/
def fallbackResult (prompt ty fw : String) : ProviderResult :=
  { files := [⟨"component.tsx", generateFallbackCode prompt ty fw, some "text/tsx"⟩]
    description := "Basic component generated"
    instructions := "Install dependencies and run the development server" }

/-- Outcome of `env.AI.run` inside `generateCode`: a thrown error or the
raw text of `response.response`. -/
inductive AIOutcome where
  | throws (msg : String)
  | ok (response : String)

/-- Result of `generateCode`: either the dynamically-typed value
`JSON.parse` produced from the extracted candidate, or the synthesized
basic structure. -/
inductive GenOut where
  | parsed (j : JsonValue)
  | synthesized (r : ProviderResult)

/-- `generateCode` (lines 185-256): run the model; extract a JSON candidate
with the fenced regex, else the bare-object regex; `JSON.parse` it (a parse
failure is caught and rethrown as `'AI code generation failed'`, as is a
thrown model call); when neither regex matches, return the synthesized
fallback structure. -/
def generateCode (prompt ty fw : String) (ai : AIOutcome) : Except String GenOut :=
  match ai with
  | .throws _ => .error "AI code generation failed"
  | .ok text =>
    match extractCandidate text.data with
    | some cand =>
      match jsonParse cand with
      | some j => .ok (.parsed j)
      | none => .error "AI code generation failed"
    | none => .ok (.synthesized (fallbackResult prompt ty fw))

/-! ## History endpoint (`GET /generation/history`, lines 122-155) -/

/-- JavaScript `parseInt` with no radix argument: skip leading whitespace,
optional sign, optional `0x`/`0X` prefix selecting base 16, then the
longest run of digits; `none` models `NaN`. -/
def jsParseInt (s : String) : Option Int :=
  let cs := s.data.dropWhile isRegexWs
  let sg : Bool × List Char :=
    match cs with
    | '-' :: r => (true, r)
    | '+' :: r => (false, r)
    | _ => (false, cs)
  let ba : Nat × List Char :=
    match sg.2 with
    | '0' :: 'x' :: r => (16, r)
    | '0' :: 'X' :: r => (16, r)
    | _ => (10, sg.2)
  let ds := ba.2.takeWhile (fun c => (hexVal c).elim false (fun v => v < ba.1))
  if ds.isEmpty then none
  else
    let v : Nat := ds.foldl (fun acc c => acc * ba.1 + (hexVal c).getD 0) 0
    some (if sg.1 then -(v : Int) else (v : Int))

/-- The effective page size of the history query (line 125):
`Math.min(parseInt(limit || '10'), 50)`; an absent or empty parameter
falls back to `'10'`, and `none` models `NaN` (which `Math.min`
propagates). -/
def historyLimit (limitParam : Option String) : Option Int :=
  let raw : String :=
    match limitParam with
    | none => "10"
    | some s => if s = "" then "10" else s
  (jsParseInt raw).map (fun n => min n 50)

/-! ## Derived notions used by the statements -/

/-- The provider block of the handler (lines 54-62): the primary result
when `callV0API` succeeds, else whatever the fallback produced. -/
def effProvider (o : Oracle) : Except String ProviderResult :=
  match o.primary with
  | .ok gc => .ok gc
  | .error _ => o.fallbackR

/-- Provider-call events of a run that reaches the provider block. -/
def provEvs (o : Oracle) : List Ev :=
  match o.primary with
  | .ok _ => [.callPrimary]
  | .error _ => [.callPrimary, .callFallback]

/-- The `fileUrls` list the storage loop builds for a provider result. -/
def urlsOf (generationId : String) (gc : ProviderResult) : List FileUrl :=
  gc.files.map (fun f => ⟨f.name, storageHost ++ fileKeyOf generationId f.name, f.ftype⟩)

/-- The blob objects the storage loop writes for a provider result. -/
def putObjsOf (generationId : String) (gc : ProviderResult) : List R2Object :=
  gc.files.map (fun f => ⟨fileKeyOf generationId f.name, f.content, contentTypeOf f.ftype⟩)

/-- The `generations` row after the completed update of a successful run. -/
def completedRowOf (inp : GenInput) (gc : ProviderResult) : GenRow :=
  { mkRow inp with status := "completed", result := some gc,
                   files := some (urlsOf inp.generationId gc),
                   completed_at := some inp.completedAt }

/-- Events a run may append after the provider block (storage writes and
ledger/counter statements); used to delimit traces. -/
def postEv : Ev → Bool
  | .r2Put _ => true
  | .updateCompleted _ => true
  | .incrementUsage => true
  | .updateFailed _ _ => true
  | _ => false

/-- The status value an event writes into the row, if any: the insert
creates the row as `processing`, the two updates set `completed` and
`failed`. -/
def statusLabel : Ev → Option String
  | .insertGen _ => some "processing"
  | .updateCompleted _ => some "completed"
  | .updateFailed _ _ => some "failed"
  | _ => none

/-- The sequence of status values written during a run. -/
def statusTrace (tr : List Ev) : List String := tr.filterMap statusLabel

/-! ## Helper lemmas -/

theorem runCatch_ext (o : Oracle) (inp : GenInput) (st : St) (e : String) (tr : List Ev) :
    ∃ ext, (runCatch o inp st e tr).2.2 = tr ++ ext ∧ ∀ x ∈ ext, postEv x = true := by
  cases h : o.failedU with
  | error e2 => exact ⟨[], by simp [runCatch, h], by simp⟩
  | ok u => exact ⟨[.updateFailed inp.generationId e], by simp [runCatch, h], by simp [postEv]⟩

theorem runCatch_resp (o : Oracle) (inp : GenInput) (st : St) (e : String) (tr : List Ev) :
    (runCatch o inp st e tr).1 = .failure "Code generation failed" ∨
      ∃ e2, (runCatch o inp st e tr).1 = .thrownOut e2 := by
  cases h : o.failedU with
  | error e2 => exact .inr ⟨e2, by simp [runCatch, h]⟩
  | ok u => exact .inl (by simp [runCatch, h])

theorem runCatch_ne_success (o : Oracle) (inp : GenInput) (st : St) (e : String) (tr : List Ev)
    (gid : String) (gc : ProviderResult) (urls : List FileUrl) (m : String) :
    (runCatch o inp st e tr).1 ≠ .success gid gc urls m := by
  rcases runCatch_resp o inp st e tr with h | ⟨e2, h⟩ <;> simp [h]

theorem putLoop_all_ok (o : Oracle) (gid : String) (files : List GenFile)
    (hputs : ∀ f ∈ files, o.put (fileKeyOf gid f.name) = .ok ()) :
    ∀ st urls tr, putLoop o gid files st urls tr = .ok
      ({ st with storage := st.storage ++
          files.map (fun f => ⟨fileKeyOf gid f.name, f.content, contentTypeOf f.ftype⟩) },
       urls ++ files.map (fun f => ⟨f.name, storageHost ++ fileKeyOf gid f.name, f.ftype⟩),
       tr ++ files.map (fun f => Ev.r2Put (fileKeyOf gid f.name))) := by
  induction files with
  | nil => intro st urls tr; simp [putLoop]
  | cons f rest ih =>
    intro st urls tr
    have hf := hputs f (by simp)
    rw [putLoop, hf]
    have ih' := ih (fun g hg => hputs g (by simp [hg]))
    rw [ih']
    simp

theorem putLoop_ok_inv (o : Oracle) (gid : String) (files : List GenFile) :
    ∀ st urls tr st' urls' tr',
      putLoop o gid files st urls tr = .ok (st', urls', tr') →
      st'.user = st.user ∧ st'.generations = st.generations ∧
      st'.storage = st.storage ++
        files.map (fun f => ⟨fileKeyOf gid f.name, f.content, contentTypeOf f.ftype⟩) ∧
      urls' = urls ++ files.map (fun f => ⟨f.name, storageHost ++ fileKeyOf gid f.name, f.ftype⟩) ∧
      tr' = tr ++ files.map (fun f => Ev.r2Put (fileKeyOf gid f.name)) ∧
      ∀ f ∈ files, o.put (fileKeyOf gid f.name) = .ok () := by
  induction files with
  | nil =>
    intro st urls tr st' urls' tr' h
    simp [putLoop] at h
    simp [h.1, h.2.1, h.2.2]
  | cons f rest ih =>
    intro st urls tr st' urls' tr' h
    rw [putLoop] at h
    cases hp : o.put (fileKeyOf gid f.name) with
    | error e => rw [hp] at h; exact absurd h (by simp)
    | ok u =>
      rw [hp] at h
      have := ih _ _ _ _ _ _ h
      obtain ⟨h1, h2, h3, h4, h5, h6⟩ := this
      refine ⟨h1, h2, by simpa using h3, by simpa using h4, by simpa using h5, ?_⟩
      intro g hg
      rcases List.mem_cons.mp hg with hg | hg
      · subst hg; cases u; exact hp
      · exact h6 g hg

theorem putLoop_err_inv (o : Oracle) (gid : String) (files : List GenFile) :
    ∀ st urls tr e st'' tr'',
      putLoop o gid files st urls tr = .error (e, st'', tr'') →
      st''.user = st.user ∧ st''.generations = st.generations ∧
      (∃ f ∈ files, o.put (fileKeyOf gid f.name) = .error e) ∧
      ∃ evs, tr'' = tr ++ evs ∧ ∀ x ∈ evs, ∃ k, x = Ev.r2Put k := by
  induction files with
  | nil =>
    intro st urls tr e st'' tr'' h
    simp [putLoop] at h
  | cons f rest ih =>
    intro st urls tr e st'' tr'' h
    rw [putLoop] at h
    cases hp : o.put (fileKeyOf gid f.name) with
    | error e0 =>
      rw [hp] at h
      simp only [Except.error.injEq, Prod.mk.injEq] at h
      obtain ⟨he, hst, htr⟩ := h
      subst he; subst hst; subst htr
      exact ⟨rfl, rfl, ⟨f, by simp, hp⟩, [], by simp⟩
    | ok u =>
      rw [hp] at h
      have := ih _ _ _ _ _ _ h
      obtain ⟨h1, h2, ⟨g, hg, hge⟩, evs, hevs, hpost⟩ := this
      refine ⟨h1, h2, ⟨g, by simp [hg], hge⟩, Ev.r2Put (fileKeyOf gid f.name) :: evs, ?_, ?_⟩
      · simpa using hevs
      · intro x hx
        rcases List.mem_cons.mp hx with hx | hx
        · exact ⟨fileKeyOf gid f.name, hx⟩
        · exact hpost x hx

theorem finishSuccess_ext (o : Oracle) (inp : GenInput) (gc : ProviderResult) (st : St)
    (urls : List FileUrl) (tr : List Ev) :
    ∃ ext, (finishSuccess o inp gc st urls tr).2.2 = tr ++ ext ∧ ∀ x ∈ ext, postEv x = true := by
  rw [finishSuccess]
  cases hc : o.completedU with
  | error e => exact runCatch_ext o inp st e tr
  | ok u =>
    cases hi : o.incrU with
    | error e =>
      obtain ⟨ext, hext, hpost⟩ :=
        runCatch_ext o inp _ e (tr ++ [Ev.updateCompleted inp.generationId])
      refine ⟨[Ev.updateCompleted inp.generationId] ++ ext, ?_, ?_⟩
      · simpa using hext
      · intro x hx
        rcases List.mem_append.mp hx with hx | hx
        · simp at hx; subst hx; rfl
        · exact hpost x hx
    | ok u =>
      exact ⟨[.updateCompleted inp.generationId, .incrementUsage], by simp, by
        intro x hx; simp at hx; rcases hx with hx | hx <;> subst hx <;> rfl⟩

theorem afterProvider_ext (o : Oracle) (inp : GenInput) (gc : ProviderResult) (st : St)
    (tr : List Ev) :
    ∃ ext, (afterProvider o inp gc st tr).2.2 = tr ++ ext ∧ ∀ x ∈ ext, postEv x = true := by
  rw [afterProvider]
  cases hput : putLoop o inp.generationId gc.files st [] tr with
  | error p =>
    obtain ⟨e, st'', tr''⟩ := p
    obtain ⟨_, _, _, evs, hevs, hpost⟩ := putLoop_err_inv o inp.generationId gc.files _ _ _ _ _ _ hput
    obtain ⟨ext2, hext2, hpost2⟩ := runCatch_ext o inp st'' e tr''
    refine ⟨evs ++ ext2, ?_, ?_⟩
    · show (runCatch o inp st'' e tr'').2.2 = tr ++ (evs ++ ext2)
      rw [hext2, hevs, List.append_assoc]
    · intro x hx
      rcases List.mem_append.mp hx with hx | hx
      · obtain ⟨k, rfl⟩ := hpost x hx
        rfl
      · exact hpost2 x hx
  | ok p =>
    obtain ⟨st', urls, tr'⟩ := p
    obtain ⟨_, _, _, _, htr', _⟩ := putLoop_ok_inv o inp.generationId gc.files _ _ _ _ _ _ hput
    obtain ⟨ext2, hext2, hpost2⟩ := finishSuccess_ext o inp gc st' urls tr'
    refine ⟨gc.files.map (fun f => Ev.r2Put (fileKeyOf inp.generationId f.name)) ++ ext2, ?_, ?_⟩
    · show (finishSuccess o inp gc st' urls tr').2.2 =
        tr ++ (gc.files.map (fun f => Ev.r2Put (fileKeyOf inp.generationId f.name)) ++ ext2)
      rw [hext2, htr', List.append_assoc]
    · intro x hx
      rcases List.mem_append.mp hx with hx | hx
      · obtain ⟨f, _, hf⟩ := List.mem_map.mp hx
        subst hf; rfl
      · exact hpost2 x hx

/-- Updating the row with a fresh id leaves a table without that id
unchanged. -/
theorem map_update_not_mem {l : List GenRow} {gid : String}
    (h : ∀ r ∈ l, r.id ≠ gid) (f : GenRow → GenRow) :
    l.map (fun r => if r.id = gid then f r else r) = l := by
  induction l with
  | nil => rfl
  | cons x xs ih =>
    simp only [List.map_cons, List.cons.injEq]
    constructor
    · rw [if_neg (h x (by simp))]
    · exact ih (fun r hr => h r (by simp [hr]))

/-- `find?` on a table whose only row with the given id is the appended
one. -/
theorem find_fresh {l : List GenRow} {gid : String} (r : GenRow)
    (h : ∀ x ∈ l, x.id ≠ gid) (hr : r.id = gid) :
    (l ++ [r]).find? (fun x => x.id = gid) = some r := by
  induction l with
  | nil => simp [List.find?, hr]
  | cons x xs ih =>
    have hx : (decide (x.id = gid)) = false := by
      simpa using h x (by simp)
    rw [List.cons_append]
    simp only [List.find?, hx]
    exact ih (fun y hy => h y (by simp [hy]))

theorem runCatch_ne_success_tuple (o : Oracle) (inp : GenInput) (stx : St) (e : String)
    (trx : List Ev) (gid : String) (gc : ProviderResult) (urls : List FileUrl) (m : String)
    (st' : St) (tr : List Ev) :
    runCatch o inp stx e trx ≠ (Resp.success gid gc urls m, st', tr) := by
  intro hc
  exact runCatch_ne_success o inp stx e trx gid gc urls m (by rw [hc])

theorem afterProvider_success_inv (o : Oracle) (inp : GenInput) (gc0 : ProviderResult)
    (st0 : St) (tr0 : List Ev) (gid : String) (gc : ProviderResult) (urls : List FileUrl)
    (m : String) (st' : St) (tr : List Ev)
    (hrun : afterProvider o inp gc0 st0 tr0 = (.success gid gc urls m, st', tr)) :
    gid = inp.generationId ∧ m = "Code generated successfully" ∧ gc = gc0 ∧
    o.completedU = .ok () ∧ o.incrU = .ok () ∧
    (∀ f ∈ gc0.files, o.put (fileKeyOf inp.generationId f.name) = .ok ()) ∧
    urls = urlsOf inp.generationId gc0 ∧
    st' = { st0 with
            user := { st0.user with generations_used := st0.user.generations_used + 1 },
            generations := st0.generations.map (updCompleted inp gc0 (urlsOf inp.generationId gc0)),
            storage := st0.storage ++ putObjsOf inp.generationId gc0 } ∧
    tr = tr0 ++ gc0.files.map (fun f => Ev.r2Put (fileKeyOf inp.generationId f.name)) ++
         [Ev.updateCompleted inp.generationId, Ev.incrementUsage] := by
  rw [afterProvider] at hrun
  cases hput : putLoop o inp.generationId gc0.files st0 [] tr0 with
  | error p =>
    obtain ⟨e, stx, trx⟩ := p
    rw [hput] at hrun
    exact absurd hrun (runCatch_ne_success_tuple o inp stx e trx gid gc urls m st' tr)
  | ok p =>
    obtain ⟨st2, urls2, tr2⟩ := p
    rw [hput] at hrun
    simp only at hrun
    rw [finishSuccess] at hrun
    cases hcu : o.completedU with
    | error e =>
      rw [hcu] at hrun
      exact absurd hrun (runCatch_ne_success_tuple o inp st2 e tr2 gid gc urls m st' tr)
    | ok u =>
      cases u
      rw [hcu] at hrun
      simp only at hrun
      cases hiu : o.incrU with
      | error e =>
        rw [hiu] at hrun
        exact absurd hrun (runCatch_ne_success_tuple o inp _ e _ gid gc urls m st' tr)
      | ok u2 =>
        cases u2
        rw [hiu] at hrun
        obtain ⟨h1, h2, h3, h4, h5, h6⟩ := putLoop_ok_inv o inp.generationId gc0.files _ _ _ _ _ _ hput
        simp only [Prod.mk.injEq, Resp.success.injEq] at hrun
        obtain ⟨⟨hgid, hgc, hurls, hm⟩, hst, htr⟩ := hrun
        have hurls2 : urls2 = urlsOf inp.generationId gc0 := by
          rw [h4]; simp [urlsOf]
        refine ⟨hgid.symm, hm.symm, hgc.symm, rfl, rfl, h6, ?_, ?_, ?_⟩
        · rw [← hurls, hurls2]
        · rw [← hst]
          refine St.ext ?_ ?_ ?_
          · simp only
            rw [h1]
          · simp only
            rw [h2, hurls2]
          · simp only
            rw [h3]
            rfl
        · rw [← htr, h5]
          simp

theorem run_success_inv (o : Oracle) (inp : GenInput) (st : St) (gid : String)
    (gc : ProviderResult) (urls : List FileUrl) (m : String) (st' : St) (tr : List Ev)
    (hfresh : ∀ r ∈ st.generations, r.id ≠ inp.generationId)
    (hrun : postGenerate o inp st = (.success gid gc urls m, st', tr)) :
    gid = inp.generationId ∧ m = "Code generated successfully" ∧
    effProvider o = .ok gc ∧ o.completedU = .ok () ∧ o.incrU = .ok () ∧
    (∀ f ∈ gc.files, o.put (fileKeyOf inp.generationId f.name) = .ok ()) ∧
    urls = urlsOf inp.generationId gc ∧
    st' = { st with
            user := { st.user with generations_used := st.user.generations_used + 1 },
            generations := st.generations ++ [completedRowOf inp gc],
            storage := st.storage ++ putObjsOf inp.generationId gc } ∧
    tr = Ev.insertGen (mkRow inp) :: (provEvs o ++
         gc.files.map (fun f => Ev.r2Put (fileKeyOf inp.generationId f.name)) ++
         [Ev.updateCompleted inp.generationId, Ev.incrementUsage]) := by
  simp only [postGenerate] at hrun
  cases hur : o.userRead with
  | error e =>
    simp only [hur] at hrun
    exact absurd hrun (runCatch_ne_success_tuple o inp st e [] gid gc urls m st' tr)
  | ok u =>
    cases u
    simp only [hur] at hrun
    by_cases hq : st.user.generations_used ≥ st.user.generations_limit
    · rw [if_pos hq] at hrun
      simp at hrun
    · rw [if_neg hq] at hrun
      cases hins : o.insertG with
      | error e =>
        simp only [hins] at hrun
        exact absurd hrun (runCatch_ne_success_tuple o inp st e [] gid gc urls m st' tr)
      | ok u2 =>
        cases u2
        simp only [hins] at hrun
        cases hpr : o.primary with
        | ok gc1 =>
          simp only [hpr] at hrun
          obtain ⟨e1, e2, e3, e4, e5, e6, e7, e8, e9⟩ :=
            afterProvider_success_inv o inp gc1 _ _ gid gc urls m st' tr hrun
          subst e1; subst e2; subst e3
          refine ⟨rfl, rfl, by simp [effProvider, hpr], e4, e5, e6, e7, ?_, ?_⟩
          · rw [e8]
            refine St.ext ?_ ?_ ?_
            · rfl
            · simp only [List.map_append]
              have hm1 : st.generations.map (updCompleted inp gc (urlsOf inp.generationId gc)) =
                  st.generations := map_update_not_mem hfresh _
              rw [hm1]
              simp [updCompleted, completedRowOf, mkRow]
            · rfl
          · rw [e9]
            simp [provEvs, hpr]
        | error e0 =>
          simp only [hpr] at hrun
          cases hfb : o.fallbackR with
          | error e =>
            simp only [hfb] at hrun
            exact absurd hrun (runCatch_ne_success_tuple o inp _ e _ gid gc urls m st' tr)
          | ok gc1 =>
            simp only [hfb] at hrun
            obtain ⟨e1, e2, e3, e4, e5, e6, e7, e8, e9⟩ :=
              afterProvider_success_inv o inp gc1 _ _ gid gc urls m st' tr hrun
            subst e1; subst e2; subst e3
            refine ⟨rfl, rfl, by simp [effProvider, hpr, hfb], e4, e5, e6, e7, ?_, ?_⟩
            · rw [e8]
              refine St.ext ?_ ?_ ?_
              · rfl
              · simp only [List.map_append]
                have hm1 : st.generations.map (updCompleted inp gc (urlsOf inp.generationId gc)) =
                    st.generations := map_update_not_mem hfresh _
                rw [hm1]
                simp [updCompleted, completedRowOf, mkRow]
              · rfl
            · rw [e9]
              simp [provEvs, hpr]

end Gen

namespace Gen

/-! ## Claim theorems -/

/-- **C1**: for every `POST /generation/generate` request by an account
whose usage counter is at least its usage limit, the handler answers `429`
with an error message containing `"Generation limit reached"`, and aborts
before any side effect: the state is returned unchanged and the event trace
is empty, so no generations row is inserted, no blob is written and no
counter is changed. -/
theorem quota_gate_rejects_without_side_effects (o : Oracle) (inp : GenInput) (st : St)
    (hread : o.userRead = .ok ())
    (hq : st.user.generations_used ≥ st.user.generations_limit) :
    postGenerate o inp st = (.quotaExceeded quotaMsg, st, []) ∧
    (postGenerate o inp st).1.code = 429 ∧
    strContains quotaMsg "Generation limit reached" := by
  have h1 : postGenerate o inp st = (.quotaExceeded quotaMsg, st, []) := by
    simp only [postGenerate, hread, if_pos hq]
  refine ⟨h1, by rw [h1]; rfl, ?_⟩
  exact ⟨"", ". Upgrade your plan to continue.", by decide⟩

/-- Witness for C1: an account with `usage = 3`, `limit = 3` is rejected
with the unchanged state and an empty trace. -/
theorem quota_gate_rejects_without_side_effects_witness :
    postGenerate
        ⟨.ok (), .ok (), .error "p", .error "f", fun _ => .ok (), .ok (), .ok (), .ok ()⟩
        ⟨"build a dashboard", "component", "react", none, "u1", "g1", "t0", "t1"⟩
        ⟨⟨3, 3⟩, [], []⟩ =
      (.quotaExceeded quotaMsg, ⟨⟨3, 3⟩, [], []⟩, []) ∧
    (postGenerate
        ⟨.ok (), .ok (), .error "p", .error "f", fun _ => .ok (), .ok (), .ok (), .ok ()⟩
        ⟨"build a dashboard", "component", "react", none, "u1", "g1", "t0", "t1"⟩
        ⟨⟨3, 3⟩, [], []⟩).1.code = 429 ∧
    strContains quotaMsg "Generation limit reached" :=
  quota_gate_rejects_without_side_effects _ _ _ rfl (by decide)

/-- **C2**: for every request that passes the quota gate, the ledger row —
carrying the generated identifier and status `'processing'` — is inserted,
and the insert precedes every provider-call event of the run: the trace
begins with the insert followed by the primary call, and any provider-call
event is preceded by the insert event. -/
theorem ledger_insert_precedes_provider_calls (o : Oracle) (inp : GenInput) (st : St)
    (hread : o.userRead = .ok ())
    (hq : st.user.generations_used < st.user.generations_limit)
    (hins : o.insertG = .ok ()) :
    (∃ rest, (postGenerate o inp st).2.2 =
        Ev.insertGen (mkRow inp) :: Ev.callPrimary :: rest) ∧
    (mkRow inp).id = inp.generationId ∧ (mkRow inp).status = "processing" ∧
    ∀ a e b, (postGenerate o inp st).2.2 = a ++ e :: b →
      (e = Ev.callPrimary ∨ e = Ev.callFallback) →
      Ev.insertGen (mkRow inp) ∈ a := by
  have hq' : ¬ st.user.generations_used ≥ st.user.generations_limit := not_le.mpr hq
  have hmain : ∃ rest, (postGenerate o inp st).2.2 =
      Ev.insertGen (mkRow inp) :: Ev.callPrimary :: rest := by
    simp only [postGenerate, hread, if_neg hq', hins]
    cases hpr : o.primary with
    | ok gc =>
      obtain ⟨ext, hext, _⟩ := afterProvider_ext o inp gc
        { st with generations := st.generations ++ [mkRow inp] }
        ([Ev.insertGen (mkRow inp)] ++ [Ev.callPrimary])
      exact ⟨ext, by simpa using hext⟩
    | error e =>
      cases hfb : o.fallbackR with
      | ok gc =>
        obtain ⟨ext, hext, _⟩ := afterProvider_ext o inp gc
          { st with generations := st.generations ++ [mkRow inp] }
          ([Ev.insertGen (mkRow inp)] ++ [Ev.callPrimary, Ev.callFallback])
        exact ⟨Ev.callFallback :: ext, by simpa using hext⟩
      | error e2 =>
        obtain ⟨ext, hext, _⟩ := runCatch_ext o inp
          { st with generations := st.generations ++ [mkRow inp] } e2
          ([Ev.insertGen (mkRow inp)] ++ [Ev.callPrimary, Ev.callFallback])
        exact ⟨Ev.callFallback :: ext, by simpa using hext⟩
  refine ⟨hmain, rfl, rfl, ?_⟩
  intro a e b heq hor
  obtain ⟨rest, htr⟩ := hmain
  rw [htr] at heq
  cases a with
  | nil =>
    rw [List.nil_append] at heq
    injection heq with h1 h2
    rcases hor with h | h <;> (rw [h] at h1; exact absurd h1 (by simp))
  | cons a0 a' =>
    rw [List.cons_append] at heq
    injection heq with h1 h2
    rw [← h1]
    exact List.mem_cons_self _ _

/-- Witness for C2: a run with one unit of quota left inserts the
`processing` row before calling the primary provider. -/
theorem ledger_insert_precedes_provider_calls_witness :
    (∃ rest, (postGenerate
        ⟨.ok (), .ok (), .ok ⟨[], "d", "i"⟩, .error "f", fun _ => .ok (), .ok (), .ok (), .ok ()⟩
        ⟨"build a dashboard", "component", "react", none, "u1", "g1", "t0", "t1"⟩
        ⟨⟨2, 3⟩, [], []⟩).2.2 =
        Ev.insertGen (mkRow ⟨"build a dashboard", "component", "react", none, "u1", "g1", "t0", "t1"⟩) ::
          Ev.callPrimary :: rest) ∧
    (mkRow ⟨"build a dashboard", "component", "react", none, "u1", "g1", "t0", "t1"⟩).id = "g1" ∧
    (mkRow ⟨"build a dashboard", "component", "react", none, "u1", "g1", "t0", "t1"⟩).status =
      "processing" ∧
    ∀ a e b, (postGenerate
        ⟨.ok (), .ok (), .ok ⟨[], "d", "i"⟩, .error "f", fun _ => .ok (), .ok (), .ok (), .ok ()⟩
        ⟨"build a dashboard", "component", "react", none, "u1", "g1", "t0", "t1"⟩
        ⟨⟨2, 3⟩, [], []⟩).2.2 = a ++ e :: b →
      (e = Ev.callPrimary ∨ e = Ev.callFallback) →
      Ev.insertGen (mkRow ⟨"build a dashboard", "component", "react", none, "u1", "g1", "t0", "t1"⟩) ∈ a :=
  ledger_insert_precedes_provider_calls _ _ _ rfl (by decide) rfl

end Gen

namespace Gen

theorem afterProvider_fail_origin (o : Oracle) (inp : GenInput) (gc : ProviderResult)
    (st : St) (tr : List Ev) (m : String)
    (hf : (afterProvider o inp gc st tr).1 = .failure m) :
    (∃ fl ∈ gc.files, ∃ e, o.put (fileKeyOf inp.generationId fl.name) = .error e) ∨
    (∃ e, o.completedU = .error e) ∨ (∃ e, o.incrU = .error e) := by
  rw [afterProvider] at hf
  cases hput : putLoop o inp.generationId gc.files st [] tr with
  | error p =>
    obtain ⟨e, stx, trx⟩ := p
    obtain ⟨_, _, horig, _⟩ := putLoop_err_inv o inp.generationId gc.files _ _ _ _ _ _ hput
    obtain ⟨fl, hfm, hfe⟩ := horig
    exact .inl ⟨fl, hfm, e, hfe⟩
  | ok p =>
    obtain ⟨st2, urls2, tr2⟩ := p
    rw [hput] at hf
    simp only at hf
    rw [finishSuccess] at hf
    cases hcu : o.completedU with
    | error e => exact .inr (.inl ⟨e, rfl⟩)
    | ok u =>
      rw [hcu] at hf
      simp only at hf
      cases hiu : o.incrU with
      | error e => exact .inr (.inr ⟨e, rfl⟩)
      | ok u2 =>
        rw [hiu] at hf
        simp at hf

theorem callV0API_nonsuccess (hasKey : Bool) (f : FetchOutcome)
    (h : (∃ m, f = .throws m) ∨
         (∃ status errText json, f = .resp false status errText json) ∨ hasKey = false) :
    ∃ e, callV0API hasKey f = .error e := by
  rcases h with ⟨m, rfl⟩ | ⟨s, t, j, rfl⟩ | hk
  · cases hasKey
    · exact ⟨"v0 API key not configured", rfl⟩
    · exact ⟨m, rfl⟩
  · cases hasKey
    · exact ⟨"v0 API key not configured", rfl⟩
    · exact ⟨"v0 API error: " ++ toString s ++ " " ++ t, rfl⟩
  · subst hk
    exact ⟨"v0 API key not configured", rfl⟩

theorem postEv_no_callPrimary (ext : List Ev) (h : ∀ x ∈ ext, postEv x = true) :
    Ev.callPrimary ∉ ext := by
  intro hc
  have := h _ hc
  simp [postEv] at this

/-- Oracle of the C3 counterexample: the primary adapter sees a non-`ok`
response, the fallback adapter succeeds with one file, and the blob write
throws. -/
def c3oracle : Oracle :=
  ⟨.ok (), .ok (),
   callV0API true (.resp false 500 "boom" ⟨none, none, none⟩),
   .ok ⟨[⟨"a.tsx", "X", some "text/tsx"⟩], "d", "i"⟩,
   fun _ => .error "R2 down", .ok (), .ok (), .ok ()⟩

/-- Input of the C3 counterexample. -/
def c3input : GenInput := ⟨"build a dashboard", "component", "react", none, "u1", "g1", "t0", "t1"⟩

/-- Initial state of the C3 counterexample. -/
def c3st : St := ⟨⟨0, 3⟩, [], []⟩

/-- **C3 counterexample**: the primary adapter fails (non-success response,
hence a thrown `v0 API error`), the fallback adapter succeeds — it does not
throw — and yet the overall generation fails (generic 500, row marked
`failed`), because the blob write throws. So with a failed primary, "the
overall generation fails only if the fallback adapter itself throws" is
false of the code. -/
theorem primary_failure_counterexample :
    c3oracle.primary = .error "v0 API error: 500 boom" ∧
    c3oracle.fallbackR = .ok ⟨[⟨"a.tsx", "X", some "text/tsx"⟩], "d", "i"⟩ ∧
    (postGenerate c3oracle c3input c3st).1 = .failure "Code generation failed" ∧
    (postGenerate c3oracle c3input c3st).1.code = 500 ∧
    (getGen (postGenerate c3oracle c3input c3st).2.1 "g1").map GenRow.status = some "failed" :=
  ⟨rfl, rfl, rfl, rfl, rfl⟩

/-- **C3 (amended)**: for every invocation where the primary adapter
(`callV0API`) sees a thrown fetch, a non-success response, or a missing
key, it throws (hard failure); the run performs exactly one primary call
(no retry) and invokes the fallback adapter before any further event — in
particular before the request can be marked `failed` — and the generation
fails only if the fallback adapter itself throws **or a statement after
the provider block (a blob write, the completed update, or the usage
increment) throws**. -/
theorem primary_failure_fallback_policy (o : Oracle) (inp : GenInput) (st : St)
    (hasKey : Bool) (f : FetchOutcome)
    (hnonsuccess : (∃ m, f = .throws m) ∨
      (∃ status errText json, f = .resp false status errText json) ∨ hasKey = false)
    (hpr : o.primary = callV0API hasKey f)
    (hread : o.userRead = .ok ())
    (hq : st.user.generations_used < st.user.generations_limit)
    (hins : o.insertG = .ok ()) :
    (∃ e, o.primary = .error e) ∧
    (postGenerate o inp st).2.2.count Ev.callPrimary = 1 ∧
    (∃ rest, (postGenerate o inp st).2.2 =
        Ev.insertGen (mkRow inp) :: Ev.callPrimary :: Ev.callFallback :: rest) ∧
    (∀ m, (postGenerate o inp st).1 = .failure m →
      (∃ e, o.fallbackR = .error e) ∨
      (∃ gc, o.fallbackR = .ok gc ∧
        ((∃ fl ∈ gc.files, ∃ e, o.put (fileKeyOf inp.generationId fl.name) = .error e) ∨
         (∃ e, o.completedU = .error e) ∨ (∃ e, o.incrU = .error e)))) := by
  obtain ⟨pe, hpe⟩ := callV0API_nonsuccess hasKey f hnonsuccess
  have hprE : o.primary = .error pe := hpr.trans hpe
  have hq' : ¬ st.user.generations_used ≥ st.user.generations_limit := not_le.mpr hq
  have hshape : ∃ rest, (postGenerate o inp st).2.2 =
      Ev.insertGen (mkRow inp) :: Ev.callPrimary :: Ev.callFallback :: rest ∧
      ∀ x ∈ rest, postEv x = true := by
    simp only [postGenerate, hread, if_neg hq', hins, hprE]
    cases hfb : o.fallbackR with
    | ok gc =>
      obtain ⟨ext, hext, hpost⟩ := afterProvider_ext o inp gc
        { st with generations := st.generations ++ [mkRow inp] }
        ([Ev.insertGen (mkRow inp)] ++ [Ev.callPrimary, Ev.callFallback])
      exact ⟨ext, by simpa using hext, hpost⟩
    | error e2 =>
      obtain ⟨ext, hext, hpost⟩ := runCatch_ext o inp
        { st with generations := st.generations ++ [mkRow inp] } e2
        ([Ev.insertGen (mkRow inp)] ++ [Ev.callPrimary, Ev.callFallback])
      exact ⟨ext, by simpa using hext, hpost⟩
  obtain ⟨rest, htr, hpost⟩ := hshape
  refine ⟨⟨pe, hprE⟩, ?_, ⟨rest, htr⟩, ?_⟩
  · rw [htr]
    have hnot : Ev.callPrimary ∉ rest := postEv_no_callPrimary rest hpost
    simp [List.count_cons, List.count_eq_zero.mpr hnot]
  · intro m hfail
    cases hfb : o.fallbackR with
    | error e2 => exact .inl ⟨e2, rfl⟩
    | ok gc =>
      refine .inr ⟨gc, rfl, ?_⟩
      have hfail' : (afterProvider o inp gc
          { st with generations := st.generations ++ [mkRow inp] }
          ([Ev.insertGen (mkRow inp)] ++ [Ev.callPrimary, Ev.callFallback])).1 = .failure m := by
        rw [← hfail]
        simp only [postGenerate, hread, if_neg hq', hins, hprE, hfb]
      exact afterProvider_fail_origin o inp gc _ _ m hfail'

/-- Witness for C3 (amended): primary non-success response, fallback
succeeding with no files, everything else succeeding. -/
theorem primary_failure_fallback_policy_witness :
    (∃ e, (⟨.ok (), .ok (), callV0API true (.resp false 500 "x" ⟨none, none, none⟩),
        .ok ⟨[], "d", "i"⟩, fun _ => .ok (), .ok (), .ok (), .ok ()⟩ : Oracle).primary =
        .error e) ∧
    (postGenerate
        ⟨.ok (), .ok (), callV0API true (.resp false 500 "x" ⟨none, none, none⟩),
         .ok ⟨[], "d", "i"⟩, fun _ => .ok (), .ok (), .ok (), .ok ()⟩
        ⟨"build a dashboard", "component", "react", none, "u1", "g1", "t0", "t1"⟩
        ⟨⟨0, 3⟩, [], []⟩).2.2.count Ev.callPrimary = 1 ∧
    (∃ rest, (postGenerate
        ⟨.ok (), .ok (), callV0API true (.resp false 500 "x" ⟨none, none, none⟩),
         .ok ⟨[], "d", "i"⟩, fun _ => .ok (), .ok (), .ok (), .ok ()⟩
        ⟨"build a dashboard", "component", "react", none, "u1", "g1", "t0", "t1"⟩
        ⟨⟨0, 3⟩, [], []⟩).2.2 =
        Ev.insertGen (mkRow ⟨"build a dashboard", "component", "react", none, "u1", "g1", "t0", "t1"⟩) ::
          Ev.callPrimary :: Ev.callFallback :: rest) ∧
    (∀ m, (postGenerate
        ⟨.ok (), .ok (), callV0API true (.resp false 500 "x" ⟨none, none, none⟩),
         .ok ⟨[], "d", "i"⟩, fun _ => .ok (), .ok (), .ok (), .ok ()⟩
        ⟨"build a dashboard", "component", "react", none, "u1", "g1", "t0", "t1"⟩
        ⟨⟨0, 3⟩, [], []⟩).1 = .failure m →
      (∃ e, (⟨.ok (), .ok (), callV0API true (.resp false 500 "x" ⟨none, none, none⟩),
          .ok ⟨[], "d", "i"⟩, fun _ => .ok (), .ok (), .ok (), .ok ()⟩ : Oracle).fallbackR =
          .error e) ∨
      (∃ gc, (⟨.ok (), .ok (), callV0API true (.resp false 500 "x" ⟨none, none, none⟩),
          .ok ⟨[], "d", "i"⟩, fun _ => .ok (), .ok (), .ok (), .ok ()⟩ : Oracle).fallbackR =
          .ok gc ∧
        ((∃ fl ∈ gc.files, ∃ e,
            (⟨.ok (), .ok (), callV0API true (.resp false 500 "x" ⟨none, none, none⟩),
             .ok ⟨[], "d", "i"⟩, fun _ => .ok (), .ok (), .ok (), .ok ()⟩ : Oracle).put
              (fileKeyOf "g1" fl.name) = .error e) ∨
         (∃ e, (⟨.ok (), .ok (), callV0API true (.resp false 500 "x" ⟨none, none, none⟩),
             .ok ⟨[], "d", "i"⟩, fun _ => .ok (), .ok (), .ok (), .ok ()⟩ : Oracle).completedU =
             .error e) ∨
         (∃ e, (⟨.ok (), .ok (), callV0API true (.resp false 500 "x" ⟨none, none, none⟩),
             .ok ⟨[], "d", "i"⟩, fun _ => .ok (), .ok (), .ok (), .ok ()⟩ : Oracle).incrU =
             .error e)))) :=
  primary_failure_fallback_policy _ _ _ true (.resp false 500 "x" ⟨none, none, none⟩)
    (.inr (.inl ⟨500, "x", ⟨none, none, none⟩, rfl⟩)) rfl rfl (by decide) rfl

end Gen

namespace Gen

/-- **C4 counterexample**: the raw response `"{oops}"` contains no
parseable JSON object (no substring parses as one), yet `generateCode` does
not synthesize a file: the bare-object regex matches `{oops}`, `JSON.parse`
of it throws, and the catch rethrows `'AI code generation failed'` — the
synthesized single-file result is produced only when *neither regex
matches*, not whenever no parseable JSON object is present. -/
theorem fallback_synthesis_counterexample :
    containsJsonObjectB "{oops}" = false ∧
    generateCode "build a dashboard" "component" "react" (.ok "{oops}") =
      .error "AI code generation failed" :=
  ⟨rfl, rfl⟩

/-- **C4 (amended)**: `generateCode` first attempts the fenced
```` ```json ```` pattern, then the bare top-level-object pattern (the
fenced match, when present, determines the parse candidate and the bare
pattern is ignored); when a candidate is extracted but fails to parse the
call throws instead of synthesizing; and whenever **neither pattern
matches**, the result is exactly one synthesized file whose content
includes the original prompt text verbatim. -/
theorem fallback_extraction_order_and_synthesis (p t f text : String) :
    (∀ cap full, fencedMatch text.data = some (cap, full) →
      extractCandidate text.data = some (if cap = [] then full else cap)) ∧
    (fencedMatch text.data = none → extractCandidate text.data = bareMatch text.data) ∧
    (∀ cand, extractCandidate text.data = some cand → jsonParse cand = none →
      generateCode p t f (.ok text) = .error "AI code generation failed") ∧
    (extractCandidate text.data = none →
      generateCode p t f (.ok text) = .ok (.synthesized (fallbackResult p t f)) ∧
      (fallbackResult p t f).files.length = 1 ∧
      strContains (generateFallbackCode p t f) p) := by
  refine ⟨?_, ?_, ?_, ?_⟩
  · intro cap full h
    rw [extractCandidate, h]
  · intro h
    rw [extractCandidate, h]
  · intro cand h hp
    simp only [generateCode, h, hp]
  · intro h
    refine ⟨by simp only [generateCode, h], rfl, ?_⟩
    exact ⟨fbA, fbB ++ p ++ fbC, by simp [generateFallbackCode, String.append_assoc]⟩

/-- Witness for C4 (amended): a plain-text model reply with no fence and
no braces yields the synthesized single-file structure embedding the
prompt. -/
theorem fallback_extraction_order_and_synthesis_witness :
    extractCandidate (String.data "plain text reply") = none ∧
    generateCode "build a dashboard" "component" "react" (.ok "plain text reply") =
      .ok (.synthesized (fallbackResult "build a dashboard" "component" "react")) ∧
    strContains (generateFallbackCode "build a dashboard" "component" "react")
      "build a dashboard" := by
  have h := (fallback_extraction_order_and_synthesis
    "build a dashboard" "component" "react" "plain text reply").2.2.2 rfl
  exact ⟨rfl, h.1, h.2.2⟩

end Gen

namespace Gen

/-- **C5**: every successful generation appends exactly one row to the
`generations` table; its terminal status is `completed`, with the
serialized provider result, the file-descriptor list and a completion
timestamp written; the stored descriptor list has the same length as the
provider's file list; and the account's usage counter is incremented by
exactly one, by a statement separate from (and after) the status update. -/
theorem success_writes_one_completed_row_and_increments
    (o : Oracle) (inp : GenInput) (st : St) (gid : String) (gc : ProviderResult)
    (urls : List FileUrl) (m : String) (st' : St) (tr : List Ev)
    (hfresh : ∀ r ∈ st.generations, r.id ≠ inp.generationId)
    (hrun : postGenerate o inp st = (.success gid gc urls m, st', tr)) :
    st'.generations = st.generations ++ [completedRowOf inp gc] ∧
    (completedRowOf inp gc).status = "completed" ∧
    (completedRowOf inp gc).result = some gc ∧
    (completedRowOf inp gc).completed_at = some inp.completedAt ∧
    (completedRowOf inp gc).files = some urls ∧
    urls.length = gc.files.length ∧
    st'.user.generations_used = st.user.generations_used + 1 ∧
    ∃ pre mid post, tr = pre ++ Ev.updateCompleted inp.generationId ::
      (mid ++ Ev.incrementUsage :: post) := by
  obtain ⟨e1, e2, e3, e4, e5, e6, e7, e8, e9⟩ :=
    run_success_inv o inp st gid gc urls m st' tr hfresh hrun
  refine ⟨by rw [e8], rfl, rfl, rfl, by rw [e7]; rfl, ?_, by rw [e8], ?_⟩
  · rw [e7]
    simp [urlsOf]
  · refine ⟨Ev.insertGen (mkRow inp) :: (provEvs o ++
      gc.files.map (fun f => Ev.r2Put (fileKeyOf inp.generationId f.name))), [], [], ?_⟩
    rw [e9]
    simp

/-- Input of the C5, C7 and C10 witnesses. -/
def cwInput : GenInput := ⟨"build a dashboard", "component", "react", none, "u1", "g1", "t0", "t1"⟩

/-- Provider result of the C5 witness. -/
def c5gc : ProviderResult := ⟨[⟨"a.tsx", "X", some "text/tsx"⟩], "d", "i"⟩

/-- Oracle of the C5 witness (everything succeeds, primary returns one
file). -/
def c5oracle : Oracle :=
  ⟨.ok (), .ok (), .ok c5gc, .error "f", fun _ => .ok (), .ok (), .ok (), .ok ()⟩

/-- `fileUrls` of the C5 witness. -/
def c5urls : List FileUrl :=
  [⟨"a.tsx", "https://storage.thisaicodes.com/generations/g1/a.tsx", some "text/tsx"⟩]

/-- Initial state of the C5 witness. -/
def c5st : St := ⟨⟨1, 3⟩, [], []⟩

/-- Witness for C5: a concrete all-success run with one file. -/
theorem success_writes_one_completed_row_and_increments_witness :
    (postGenerate c5oracle cwInput c5st).2.1.generations =
      c5st.generations ++ [completedRowOf cwInput c5gc] ∧
    (completedRowOf cwInput c5gc).status = "completed" ∧
    (completedRowOf cwInput c5gc).result = some c5gc ∧
    (completedRowOf cwInput c5gc).completed_at = some cwInput.completedAt ∧
    (completedRowOf cwInput c5gc).files = some c5urls ∧
    c5urls.length = c5gc.files.length ∧
    (postGenerate c5oracle cwInput c5st).2.1.user.generations_used =
      c5st.user.generations_used + 1 ∧
    ∃ pre mid post, (postGenerate c5oracle cwInput c5st).2.2 =
      pre ++ Ev.updateCompleted cwInput.generationId ::
        (mid ++ Ev.incrementUsage :: post) :=
  success_writes_one_completed_row_and_increments c5oracle cwInput c5st
    "g1" c5gc c5urls "Code generated successfully" _ _ (by simp [c5st]) (by decide)

end Gen

namespace Gen

theorem runCatch_fail_char (o : Oracle) (inp : GenInput) (stx : St) (e : String) (trx : List Ev)
    (l : List GenRow) (row : GenRow)
    (hrec : o.failedU = .ok ())
    (hgen : stx.generations = l ++ [row])
    (hl : ∀ r ∈ l, r.id ≠ inp.generationId)
    (hrow : row.id = inp.generationId) :
    (runCatch o inp stx e trx).1 = .failure "Code generation failed" ∧
    (runCatch o inp stx e trx).2.1.user = stx.user ∧
    Ev.updateFailed inp.generationId e ∈ (runCatch o inp stx e trx).2.2 ∧
    ∃ row', getGen (runCatch o inp stx e trx).2.1 inp.generationId = some row' ∧
      row'.status = "failed" ∧ row'.error = some e := by
  simp only [runCatch, hrec]
  refine ⟨by simp, by simp, by simp, ?_⟩
  refine ⟨{ row with status := "failed", error := some e }, ?_, rfl, rfl⟩
  simp only [getGen]
  show ((stx.generations.map (updFailed inp e)).find? fun r => r.id = inp.generationId) = _
  rw [hgen, List.map_append]
  have h1 : l.map (updFailed inp e) = l := map_update_not_mem hl _
  have h2 : [row].map (updFailed inp e) =
      [{ row with status := "failed", error := some e }] := by
    simp [updFailed, hrow]
  rw [h1, h2]
  exact find_fresh _ hl hrow

theorem afterProvider_outcomes (o : Oracle) (inp : GenInput) (gc : ProviderResult)
    (st0 : St) (tr0 : List Ev) (l : List GenRow) (row : GenRow)
    (hrec : o.failedU = .ok ())
    (hgen : st0.generations = l ++ [row])
    (hl : ∀ r ∈ l, r.id ≠ inp.generationId)
    (hrow : row.id = inp.generationId) :
    (∃ urls m, (afterProvider o inp gc st0 tr0).1 = .success inp.generationId gc urls m) ∨
    ((afterProvider o inp gc st0 tr0).1 = .failure "Code generation failed" ∧
     (afterProvider o inp gc st0 tr0).2.1.user = st0.user ∧
     ∃ e, Ev.updateFailed inp.generationId e ∈ (afterProvider o inp gc st0 tr0).2.2 ∧
       ∃ row', getGen (afterProvider o inp gc st0 tr0).2.1 inp.generationId = some row' ∧
         row'.status = "failed" ∧ row'.error = some e) := by
  rw [afterProvider]
  cases hput : putLoop o inp.generationId gc.files st0 [] tr0 with
  | error p =>
    obtain ⟨e, stx, trx⟩ := p
    obtain ⟨hu, hg, _, _⟩ := putLoop_err_inv o inp.generationId gc.files _ _ _ _ _ _ hput
    obtain ⟨f1, f2, f3, f4⟩ := runCatch_fail_char o inp stx e trx l row hrec
      (hg.trans hgen) hl hrow
    exact .inr ⟨f1, f2.trans hu, e, f3, f4⟩
  | ok p =>
    obtain ⟨st2, urls2, tr2⟩ := p
    obtain ⟨hu, hg, _, _, _, _⟩ := putLoop_ok_inv o inp.generationId gc.files _ _ _ _ _ _ hput
    simp only
    rw [finishSuccess]
    cases hcu : o.completedU with
    | error e =>
      obtain ⟨f1, f2, f3, f4⟩ := runCatch_fail_char o inp st2 e tr2 l row hrec
        (hg.trans hgen) hl hrow
      exact .inr ⟨f1, f2.trans hu, e, f3, f4⟩
    | ok u =>
      simp only
      cases hiu : o.incrU with
      | error e =>
        have hmap : l.map (updCompleted inp gc urls2) = l := map_update_not_mem hl _
        have hgen3 : ({ st2 with
            generations := st2.generations.map (updCompleted inp gc urls2) } : St).generations =
            l ++ [updCompleted inp gc urls2 row] := by
          simp only
          rw [hg.trans hgen, List.map_append, hmap]
          rfl
        have hrow3 : (updCompleted inp gc urls2 row).id = inp.generationId := by
          simp [updCompleted, hrow]
        obtain ⟨f1, f2, f3, f4⟩ := runCatch_fail_char o inp
          { st2 with generations := st2.generations.map (updCompleted inp gc urls2) } e
          (tr2 ++ [Ev.updateCompleted inp.generationId]) l
          (updCompleted inp gc urls2 row) hrec hgen3 hl hrow3
        exact .inr ⟨f1, f2.trans hu, e, f3, f4⟩
      | ok u2 =>
        exact .inl ⟨urls2, "Code generated successfully", rfl⟩

/-- **C6**: for every run that passes the quota gate and whose ledger
insert succeeds, either the run succeeds, or — whatever exception was
thrown after the initial insert (provider block, blob write, completed
update or usage increment) — the handler records status `failed` together
with the caught error's message in the generations row, answers a generic
500, and leaves the account's usage counter unchanged. (The recovery
update itself is assumed to succeed.) -/
theorem post_insert_exception_marks_failed (o : Oracle) (inp : GenInput) (st : St)
    (hread : o.userRead = .ok ())
    (hq : st.user.generations_used < st.user.generations_limit)
    (hins : o.insertG = .ok ())
    (hrec : o.failedU = .ok ())
    (hfresh : ∀ r ∈ st.generations, r.id ≠ inp.generationId) :
    (∃ gc urls m, (postGenerate o inp st).1 = .success inp.generationId gc urls m) ∨
    ((postGenerate o inp st).1 = .failure "Code generation failed" ∧
     (postGenerate o inp st).1.code = 500 ∧
     (postGenerate o inp st).2.1.user = st.user ∧
     ∃ e, Ev.updateFailed inp.generationId e ∈ (postGenerate o inp st).2.2 ∧
       ∃ row, getGen (postGenerate o inp st).2.1 inp.generationId = some row ∧
         row.status = "failed" ∧ row.error = some e) := by
  have hq' : ¬ st.user.generations_used ≥ st.user.generations_limit := not_le.mpr hq
  simp only [postGenerate, hread, if_neg hq', hins]
  have hgen1 : ({ st with generations := st.generations ++ [mkRow inp] } : St).generations =
      st.generations ++ [mkRow inp] := rfl
  cases hpr : o.primary with
  | ok gc =>
    simp only
    rcases afterProvider_outcomes o inp gc
      { st with generations := st.generations ++ [mkRow inp] }
      ([Ev.insertGen (mkRow inp)] ++ [Ev.callPrimary]) st.generations (mkRow inp)
      hrec hgen1 hfresh rfl with h | ⟨f1, f2, e, f3, f4⟩
    · obtain ⟨urls, m, hsucc⟩ := h
      exact .inl ⟨gc, urls, m, hsucc⟩
    · exact .inr ⟨f1, by rw [f1]; rfl, f2, e, f3, f4⟩
  | error e0 =>
    simp only
    cases hfb : o.fallbackR with
    | ok gc =>
      simp only
      rcases afterProvider_outcomes o inp gc
        { st with generations := st.generations ++ [mkRow inp] }
        ([Ev.insertGen (mkRow inp)] ++ [Ev.callPrimary, Ev.callFallback]) st.generations
        (mkRow inp) hrec hgen1 hfresh rfl with h | ⟨f1, f2, e, f3, f4⟩
      · obtain ⟨urls, m, hsucc⟩ := h
        exact .inl ⟨gc, urls, m, hsucc⟩
      · exact .inr ⟨f1, by rw [f1]; rfl, f2, e, f3, f4⟩
    | error e1 =>
      simp only
      obtain ⟨f1, f2, f3, f4⟩ := runCatch_fail_char o inp
        { st with generations := st.generations ++ [mkRow inp] } e1
        ([Ev.insertGen (mkRow inp)] ++ [Ev.callPrimary, Ev.callFallback]) st.generations
        (mkRow inp) hrec hgen1 hfresh rfl
      exact .inr ⟨f1, by rw [f1]; rfl, f2, e1, f3, f4⟩

/-- Oracle of the C6 witness: the completed update throws. -/
def c6oracle : Oracle :=
  ⟨.ok (), .ok (), .ok ⟨[], "d", "i"⟩, .error "f", fun _ => .ok (), .error "db down", .ok (), .ok ()⟩

/-- Witness for C6: a run whose completed update throws ends as a 500 with
the row marked `failed` carrying the caught message and the counter
unchanged. -/
theorem post_insert_exception_marks_failed_witness :
    (∃ gc urls m, (postGenerate c6oracle cwInput ⟨⟨0, 3⟩, [], []⟩).1 =
      .success cwInput.generationId gc urls m) ∨
    ((postGenerate c6oracle cwInput ⟨⟨0, 3⟩, [], []⟩).1 = .failure "Code generation failed" ∧
     (postGenerate c6oracle cwInput ⟨⟨0, 3⟩, [], []⟩).1.code = 500 ∧
     (postGenerate c6oracle cwInput ⟨⟨0, 3⟩, [], []⟩).2.1.user = (⟨⟨0, 3⟩, [], []⟩ : St).user ∧
     ∃ e, Ev.updateFailed cwInput.generationId e ∈
         (postGenerate c6oracle cwInput ⟨⟨0, 3⟩, [], []⟩).2.2 ∧
       ∃ row, getGen (postGenerate c6oracle cwInput ⟨⟨0, 3⟩, [], []⟩).2.1
           cwInput.generationId = some row ∧
         row.status = "failed" ∧ row.error = some e) :=
  post_insert_exception_marks_failed c6oracle cwInput ⟨⟨0, 3⟩, [], []⟩
    rfl (by decide) rfl rfl (by simp)

end Gen

namespace Gen

theorem statusTrace_append (a b : List Ev) :
    statusTrace (a ++ b) = statusTrace a ++ statusTrace b := by
  simp [statusTrace, List.filterMap_append]

theorem statusTrace_of_r2Puts (evs : List Ev) (h : ∀ x ∈ evs, ∃ k, x = Ev.r2Put k) :
    statusTrace evs = [] := by
  induction evs with
  | nil => rfl
  | cons x rest ih =>
    obtain ⟨k, rfl⟩ := h x (by simp)
    simpa [statusTrace, statusLabel] using ih (fun y hy => h y (by simp [hy]))

theorem statusTrace_r2Puts_map (files : List GenFile) (gid : String) :
    statusTrace (files.map (fun f => Ev.r2Put (fileKeyOf gid f.name))) = [] := by
  induction files with
  | nil => rfl
  | cons f rest ih => simp [statusTrace, statusLabel, ih]

theorem runCatch_trace (o : Oracle) (inp : GenInput) (stx : St) (e : String) (trx : List Ev) :
    (runCatch o inp stx e trx).2.2 = trx ∨
    (runCatch o inp stx e trx).2.2 = trx ++ [Ev.updateFailed inp.generationId e] := by
  cases h : o.failedU <;> simp [runCatch, h]

theorem afterProvider_status (o : Oracle) (inp : GenInput) (gc : ProviderResult)
    (st0 : St) (tr0 : List Ev) (h0 : statusTrace tr0 = ["processing"]) :
    statusTrace (afterProvider o inp gc st0 tr0).2.2 = ["processing"] ∨
    statusTrace (afterProvider o inp gc st0 tr0).2.2 = ["processing", "failed"] ∨
    statusTrace (afterProvider o inp gc st0 tr0).2.2 = ["processing", "completed"] ∨
    (statusTrace (afterProvider o inp gc st0 tr0).2.2 = ["processing", "completed", "failed"] ∧
     ∃ e, o.incrU = .error e) := by
  rw [afterProvider]
  cases hput : putLoop o inp.generationId gc.files st0 [] tr0 with
  | error p =>
    obtain ⟨e, stx, trx⟩ := p
    simp only
    obtain ⟨_, _, _, evs, hevs, hkind⟩ := putLoop_err_inv o inp.generationId gc.files _ _ _ _ _ _ hput
    have hst : statusTrace trx = ["processing"] := by
      rw [hevs, statusTrace_append, statusTrace_of_r2Puts evs hkind, h0]
      rfl
    rcases runCatch_trace o inp stx e trx with h | h <;> rw [h]
    · exact .inl hst
    · refine .inr (.inl ?_)
      rw [statusTrace_append, hst]
      rfl
  | ok p =>
    obtain ⟨st2, urls2, tr2⟩ := p
    simp only
    obtain ⟨_, _, _, _, htr2, _⟩ := putLoop_ok_inv o inp.generationId gc.files _ _ _ _ _ _ hput
    have hst2 : statusTrace tr2 = ["processing"] := by
      rw [htr2, statusTrace_append, statusTrace_r2Puts_map, h0]
      rfl
    rw [finishSuccess]
    cases hcu : o.completedU with
    | error e =>
      rcases runCatch_trace o inp st2 e tr2 with h | h <;> rw [h]
      · exact .inl hst2
      · refine .inr (.inl ?_)
        rw [statusTrace_append, hst2]
        rfl
    | ok u =>
      simp only
      have hstc : statusTrace (tr2 ++ [Ev.updateCompleted inp.generationId]) =
          ["processing", "completed"] := by
        rw [statusTrace_append, hst2]
        rfl
      cases hiu : o.incrU with
      | error e =>
        rcases runCatch_trace o inp _ e (tr2 ++ [Ev.updateCompleted inp.generationId])
          with h | h <;> rw [h]
        · exact .inr (.inr (.inl hstc))
        · refine .inr (.inr (.inr ⟨?_, e, rfl⟩))
          rw [statusTrace_append, hstc]
          rfl
      | ok u2 =>
        refine .inr (.inr (.inl ?_))
        rw [statusTrace_append, hstc]
        rfl

theorem run_statusTrace (o : Oracle) (inp : GenInput) (st : St) :
    statusTrace (postGenerate o inp st).2.2 = [] ∨
    statusTrace (postGenerate o inp st).2.2 = ["failed"] ∨
    statusTrace (postGenerate o inp st).2.2 = ["processing"] ∨
    statusTrace (postGenerate o inp st).2.2 = ["processing", "failed"] ∨
    statusTrace (postGenerate o inp st).2.2 = ["processing", "completed"] ∨
    (statusTrace (postGenerate o inp st).2.2 = ["processing", "completed", "failed"] ∧
     ∃ e, o.incrU = .error e) := by
  simp only [postGenerate]
  cases hur : o.userRead with
  | error e =>
    simp only
    rcases runCatch_trace o inp st e [] with h | h <;> rw [h]
    · exact .inl rfl
    · exact .inr (.inl rfl)
  | ok u =>
    simp only
    by_cases hq : st.user.generations_used ≥ st.user.generations_limit
    · rw [if_pos hq]
      exact .inl rfl
    · rw [if_neg hq]
      cases hins : o.insertG with
      | error e =>
        simp only
        rcases runCatch_trace o inp st e [] with h | h <;> rw [h]
        · exact .inl rfl
        · exact .inr (.inl rfl)
      | ok u2 =>
        simp only
        cases hpr : o.primary with
        | ok gc =>
          simp only
          have h0 : statusTrace ([Ev.insertGen (mkRow inp)] ++ [Ev.callPrimary]) =
              ["processing"] := rfl
          rcases afterProvider_status o inp gc
            { st with generations := st.generations ++ [mkRow inp] } _ h0
            with h | h | h | ⟨h, he⟩
          · exact .inr (.inr (.inl h))
          · exact .inr (.inr (.inr (.inl h)))
          · exact .inr (.inr (.inr (.inr (.inl h))))
          · exact .inr (.inr (.inr (.inr (.inr ⟨h, he⟩))))
        | error e0 =>
          simp only
          cases hfb : o.fallbackR with
          | ok gc =>
            simp only
            have h0 : statusTrace
                ([Ev.insertGen (mkRow inp)] ++ [Ev.callPrimary, Ev.callFallback]) =
                ["processing"] := rfl
            rcases afterProvider_status o inp gc
              { st with generations := st.generations ++ [mkRow inp] } _ h0
              with h | h | h | ⟨h, he⟩
            · exact .inr (.inr (.inl h))
            · exact .inr (.inr (.inr (.inl h)))
            · exact .inr (.inr (.inr (.inr (.inl h))))
            · exact .inr (.inr (.inr (.inr (.inr ⟨h, he⟩))))
          | error e1 =>
            simp only
            have h0 : statusTrace
                ([Ev.insertGen (mkRow inp)] ++ [Ev.callPrimary, Ev.callFallback]) =
                ["processing"] := rfl
            rcases runCatch_trace o inp
              { st with generations := st.generations ++ [mkRow inp] } e1
              ([Ev.insertGen (mkRow inp)] ++ [Ev.callPrimary, Ev.callFallback])
              with h | h <;> rw [h]
            · exact .inr (.inr (.inl h0))
            · refine .inr (.inr (.inr (.inl ?_)))
              rw [statusTrace_append, h0]
              rfl

end Gen

namespace Gen

/-- Oracle of the C7 counterexample: both ledger updates succeed but the
usage-increment statement throws. -/
def c7oracle : Oracle :=
  ⟨.ok (), .ok (), .ok ⟨[], "d", "i"⟩, .error "f", fun _ => .ok (), .ok (), .error "boom", .ok ()⟩

/-- **C7 counterexample**: when the usage increment (which runs after the
completed update, still inside the `try`) throws, the catch block sets the
row — already `completed` — to `failed`: the same run writes `processing`,
then `completed`, then `failed`, i.e. a transition out of the terminal
state `completed` occurs and the row ends up `failed`. -/
theorem terminal_state_counterexample :
    (postGenerate c7oracle cwInput ⟨⟨0, 3⟩, [], []⟩).2.2 =
      [Ev.insertGen (mkRow cwInput), Ev.callPrimary, Ev.updateCompleted "g1",
       Ev.updateFailed "g1" "boom"] ∧
    statusTrace (postGenerate c7oracle cwInput ⟨⟨0, 3⟩, [], []⟩).2.2 =
      ["processing", "completed", "failed"] ∧
    (∃ a b c, (postGenerate c7oracle cwInput ⟨⟨0, 3⟩, [], []⟩).2.2 =
      a ++ Ev.updateCompleted "g1" :: (b ++ Ev.updateFailed "g1" "boom" :: c)) ∧
    (getGen (postGenerate c7oracle cwInput ⟨⟨0, 3⟩, [], []⟩).2.1 "g1").map GenRow.status =
      some "failed" :=
  ⟨rfl, rfl, ⟨[Ev.insertGen (mkRow cwInput), Ev.callPrimary], [], [], rfl⟩, rfl⟩

/-- **C7 (amended)**: in every run, the sequence of status values written
for the request row is one of `[]`, `[failed]` (a recovery update matching
no row), `[processing]`, `[processing, failed]`, `[processing, completed]`
or `[processing, completed, failed]` — so a status is written at most once
out of `processing` into a terminal state, and `failed` is never exited;
the single exception to terminal-state stability is that a `completed` row
is subsequently set to `failed`, and this happens only when the usage
increment (run after the completed update) throws. -/
theorem status_transitions (o : Oracle) (inp : GenInput) (st : St) :
    (statusTrace (postGenerate o inp st).2.2 = [] ∨
     statusTrace (postGenerate o inp st).2.2 = ["failed"] ∨
     statusTrace (postGenerate o inp st).2.2 = ["processing"] ∨
     statusTrace (postGenerate o inp st).2.2 = ["processing", "failed"] ∨
     statusTrace (postGenerate o inp st).2.2 = ["processing", "completed"] ∨
     statusTrace (postGenerate o inp st).2.2 = ["processing", "completed", "failed"]) ∧
    (statusTrace (postGenerate o inp st).2.2 = ["processing", "completed", "failed"] →
      ∃ e, o.incrU = .error e) := by
  rcases run_statusTrace o inp st with h | h | h | h | h | ⟨h, he⟩
  · exact ⟨.inl h, fun hc => absurd (h.symm.trans hc) (by decide)⟩
  · exact ⟨.inr (.inl h), fun hc => absurd (h.symm.trans hc) (by decide)⟩
  · exact ⟨.inr (.inr (.inl h)), fun hc => absurd (h.symm.trans hc) (by decide)⟩
  · exact ⟨.inr (.inr (.inr (.inl h))), fun hc => absurd (h.symm.trans hc) (by decide)⟩
  · exact ⟨.inr (.inr (.inr (.inr (.inl h)))), fun hc => absurd (h.symm.trans hc) (by decide)⟩
  · exact ⟨.inr (.inr (.inr (.inr (.inr h)))), fun _ => he⟩

/-- Witness for C7 (amended): a fully successful run writes `processing`
then `completed` and nothing else. -/
theorem status_transitions_witness :
    (statusTrace (postGenerate c5oracle cwInput c5st).2.2 = [] ∨
     statusTrace (postGenerate c5oracle cwInput c5st).2.2 = ["failed"] ∨
     statusTrace (postGenerate c5oracle cwInput c5st).2.2 = ["processing"] ∨
     statusTrace (postGenerate c5oracle cwInput c5st).2.2 = ["processing", "failed"] ∨
     statusTrace (postGenerate c5oracle cwInput c5st).2.2 = ["processing", "completed"] ∨
     statusTrace (postGenerate c5oracle cwInput c5st).2.2 =
       ["processing", "completed", "failed"]) ∧
    (statusTrace (postGenerate c5oracle cwInput c5st).2.2 =
        ["processing", "completed", "failed"] →
      ∃ e, c5oracle.incrU = .error e) :=
  status_transitions c5oracle cwInput c5st

end Gen

namespace Gen

/-- **C8**: in every successful run, each provider file is written to the
blob store under the key `generations/<requestId>/<fileName>` with its
declared content type (defaulting to `text/plain`), and each stored
descriptor's public URL is exactly the fixed storage host
`https://storage.thisaicodes.com/` concatenated with that same key. -/
theorem artifact_keys_and_urls (o : Oracle) (inp : GenInput) (st : St) (gid : String)
    (gc : ProviderResult) (urls : List FileUrl) (m : String) (st' : St) (tr : List Ev)
    (hfresh : ∀ r ∈ st.generations, r.id ≠ inp.generationId)
    (hrun : postGenerate o inp st = (.success gid gc urls m, st', tr)) :
    st'.storage = st.storage ++ gc.files.map (fun fl =>
      R2Object.mk (fileKeyOf inp.generationId fl.name) fl.content (contentTypeOf fl.ftype)) ∧
    urls = gc.files.map (fun fl =>
      FileUrl.mk fl.name (storageHost ++ fileKeyOf inp.generationId fl.name) fl.ftype) ∧
    (∀ u ∈ urls, u.url = storageHost ++ fileKeyOf inp.generationId u.name) ∧
    storageHost = "https://storage.thisaicodes.com/" := by
  obtain ⟨e1, e2, e3, e4, e5, e6, e7, e8, e9⟩ :=
    run_success_inv o inp st gid gc urls m st' tr hfresh hrun
  refine ⟨by rw [e8]; rfl, e7, ?_, rfl⟩
  intro u hu
  rw [e7] at hu
  obtain ⟨fl, _, rfl⟩ := List.mem_map.mp hu
  rfl

/-- Witness for C8: the concrete all-success run of the C5 witness. -/
theorem artifact_keys_and_urls_witness :
    (postGenerate c5oracle cwInput c5st).2.1.storage = c5st.storage ++ c5gc.files.map (fun fl =>
      R2Object.mk (fileKeyOf "g1" fl.name) fl.content (contentTypeOf fl.ftype)) ∧
    c5urls = c5gc.files.map (fun fl =>
      FileUrl.mk fl.name (storageHost ++ fileKeyOf "g1" fl.name) fl.ftype) ∧
    (∀ u ∈ c5urls, u.url = storageHost ++ fileKeyOf "g1" u.name) ∧
    storageHost = "https://storage.thisaicodes.com/" :=
  artifact_keys_and_urls c5oracle cwInput c5st "g1" c5gc c5urls
    "Code generated successfully" (postGenerate c5oracle cwInput c5st).2.1
    (postGenerate c5oracle cwInput c5st).2.2 (by simp [c5st]) (by decide)

/-- **C9**: for every `GET /generation/history` request, the page size
used for the query never exceeds 50 — whatever the `limit` query
parameter's value, a numeric bound passed to the query is at most 50 —
and an absent (or empty, hence falsy) parameter yields 10. -/
theorem history_limit_capped :
    (∀ q n, historyLimit q = some n → n ≤ 50) ∧ historyLimit none = some 10 := by
  constructor
  · intro q n h
    simp only [historyLimit] at h
    obtain ⟨v, hv, rfl⟩ := Option.map_eq_some'.mp h
    exact min_le_right v 50
  · rfl

end Gen

namespace Gen

/-- Witness for C9: `limit=100` is capped to 50; the absent parameter
yields 10. -/
theorem history_limit_capped_witness :
    historyLimit (some "100") = some 50 ∧ (50 : Int) ≤ 50 ∧ historyLimit none = some 10 :=
  ⟨rfl, history_limit_capped.1 (some "100") 50 rfl, history_limit_capped.2⟩

/-- **C10**: when the primary provider responds successfully but its body
has no `files` array (or an empty one), `callV0API` normalizes it to an
empty file list and the workflow still completes: the run succeeds, the
row is marked `completed` with an empty descriptor list, nothing is
written to blob storage and no `r2Put` event occurs. -/
theorem empty_primary_files_completes_without_artifacts
    (o : Oracle) (inp : GenInput) (st : St) (status : Nat) (errText : String)
    (json : V0Json) (gc : ProviderResult)
    (hfiles : json.files = none ∨ json.files = some [])
    (hv0 : callV0API true (.resp true status errText json) = .ok gc)
    (hpr : o.primary = .ok gc)
    (hread : o.userRead = .ok ())
    (hq : st.user.generations_used < st.user.generations_limit)
    (hins : o.insertG = .ok ())
    (hcu : o.completedU = .ok ())
    (hiu : o.incrU = .ok ())
    (hfresh : ∀ r ∈ st.generations, r.id ≠ inp.generationId) :
    gc.files = [] ∧
    (postGenerate o inp st).1 =
      .success inp.generationId gc [] "Code generated successfully" ∧
    (postGenerate o inp st).2.1.storage = st.storage ∧
    getGen (postGenerate o inp st).2.1 inp.generationId = some (completedRowOf inp gc) ∧
    (completedRowOf inp gc).status = "completed" ∧
    (completedRowOf inp gc).files = some [] ∧
    ∀ k, Ev.r2Put k ∉ (postGenerate o inp st).2.2 := by
  have hq' : ¬ st.user.generations_used ≥ st.user.generations_limit := not_le.mpr hq
  have hgc : gc.files = [] := by
    rw [callV0API] at hv0
    simp only [Bool.not_true, Bool.false_eq_true, if_false] at hv0
    rcases hfiles with hf | hf <;>
      (rw [hf] at hv0
       simp only [Except.ok.injEq] at hv0
       rw [← hv0]
       rfl)
  have hurls : urlsOf inp.generationId gc = [] := by
    simp [urlsOf, hgc]
  have hrun : postGenerate o inp st =
      (.success inp.generationId gc [] "Code generated successfully",
       { st with
         user := { st.user with generations_used := st.user.generations_used + 1 },
         generations := st.generations ++ [completedRowOf inp gc] },
       [Ev.insertGen (mkRow inp), Ev.callPrimary, Ev.updateCompleted inp.generationId,
        Ev.incrementUsage]) := by
    simp only [postGenerate, hread, if_neg hq', hins, hpr, afterProvider, hgc, putLoop,
      finishSuccess, hcu, hiu]
    refine Prod.ext rfl (Prod.ext ?_ rfl)
    simp only
    refine St.ext rfl ?_ rfl
    simp only
    have hmap : st.generations.map (updCompleted inp gc []) = st.generations :=
      map_update_not_mem hfresh _
    rw [List.map_append, hmap]
    simp [updCompleted, completedRowOf, mkRow, hurls]
  refine ⟨hgc, by rw [hrun], by rw [hrun], ?_, rfl, by rw [hurls.symm]; rfl, ?_⟩
  · rw [hrun]
    simp only [getGen]
    exact find_fresh _ hfresh rfl
  · intro k hk
    rw [hrun] at hk
    simp at hk

end Gen

namespace Gen

/-- Provider result of the C10 witness (normalized empty file list). -/
def c10gc : ProviderResult := ⟨[], "d", "i"⟩

/-- Oracle of the C10 witness. -/
def c10oracle : Oracle :=
  ⟨.ok (), .ok (), .ok c10gc, .error "f", fun _ => .ok (), .ok (), .ok (), .ok ()⟩

/-- Witness for C10: a v0 response whose body lacks a `files` array
completes with an empty descriptor list and no blob writes. -/
theorem empty_primary_files_completes_without_artifacts_witness :
    c10gc.files = [] ∧
    (postGenerate c10oracle cwInput ⟨⟨0, 3⟩, [], []⟩).1 =
      .success cwInput.generationId c10gc [] "Code generated successfully" ∧
    (postGenerate c10oracle cwInput ⟨⟨0, 3⟩, [], []⟩).2.1.storage = (⟨⟨0, 3⟩, [], []⟩ : St).storage ∧
    getGen (postGenerate c10oracle cwInput ⟨⟨0, 3⟩, [], []⟩).2.1 cwInput.generationId =
      some (completedRowOf cwInput c10gc) ∧
    (completedRowOf cwInput c10gc).status = "completed" ∧
    (completedRowOf cwInput c10gc).files = some [] ∧
    ∀ k, Ev.r2Put k ∉ (postGenerate c10oracle cwInput ⟨⟨0, 3⟩, [], []⟩).2.2 :=
  empty_primary_files_completes_without_artifacts c10oracle cwInput ⟨⟨0, 3⟩, [], []⟩
    200 "" ⟨none, some "d", some "i"⟩ c10gc (.inl rfl) rfl rfl rfl (by decide) rfl rfl rfl
    (by simp)

end Gen
